import Mathlib

/-!
Shallow embedding of `src/pagecache/pointer.rs` (the page-location core of a
log-structured page cache): the 8-byte tagged `PagePointer`, its decoded view
`PointerRead`, the value types `TruncatedLogOffset`, `SizeClass`, `HeapId`,
and the resident records (`PersistedNode`, `PersistedMeta`, `PersistedCounter`,
`LogAndHeap`).

Conventions of the embedding:
- machine integers (`u8`, `u32`, `u64`, `usize`) are `Nat`; `i64` (`Lsn`) is `Int`;
- a byte array or `Vec` is a `List Nat` whose entries are `< 256` when well formed;
- a Rust panic (failed `assert_eq!`, `todo!`, a panicking accessor) and undefined
  behaviour (an out-of-range `transmute`, dereferencing an address at the wrong
  type) are both modelled as `Option.none`;
- a `Shared` (epoch-guarded) pointer is modelled as its 48-bit address (`Nat`)
  together with an explicit `Memory` environment saying which record, if any,
  is resident at each address while the guard is held.
-/

/-- Value of a little-endian byte list, least significant byte first
(`u64::from_le_bytes` on an 8-byte list). -/
def fromLeBytes : List Nat → Nat
  | [] => 0
  | b :: t => b + 256 * fromLeBytes t

/-- First `k` little-endian base-256 digits of `n` (`u64::to_le_bytes` is
`toLeBytes 8`). -/
def toLeBytes : Nat → Nat → List Nat
  | 0, _ => []
  | k + 1, n => n % 256 :: toLeBytes k (n / 256)

/-- `TruncatedLogOffset([u8; 6])`: a log offset packed into 6 little-endian
bytes (pointer.rs line 41). -/
structure TruncatedLogOffset where
  data : List Nat
deriving DecidableEq

/-- `TruncatedLogOffset::to_lid`: rebuild the `u64` offset from the 6 bytes,
padding the top two bytes with zero (pointer.rs lines 44-49). -/
def TruncatedLogOffset.to_lid (t : TruncatedLogOffset) : Nat :=
  fromLeBytes (t.data ++ [0, 0])

/-- `TruncatedLogOffset::from_u64` (pointer.rs lines 51-55). The source takes
`arr = from.to_le_bytes()` and runs `assert_eq!(arr[6..7], [0, 0])`: the
left-hand side is the length-one slice `[arr[6]]` while the right-hand side has
length two, so the assertion is compared exactly as written here; a failed
assertion (a panic) is `none`. On success the low six bytes are packed. -/
def TruncatedLogOffset.from_u64 (n : Nat) : Option TruncatedLogOffset :=
  if [n / 256 ^ 6 % 256] = ([0, 0] : List Nat) then
    some ⟨[n % 256, n / 256 % 256, n / 256 ^ 2 % 256, n / 256 ^ 3 % 256,
           n / 256 ^ 4 % 256, n / 256 ^ 5 % 256]⟩
  else none

/-- `SizeClass(u8)`: a power-of-two size bucket stored as its exponent
(pointer.rs line 60). -/
structure SizeClass where
  exponent : Nat
deriving DecidableEq

/-- `SizeClass::size`: `1 << self.0` (pointer.rs lines 63-65). Exponents
produced by the constructors below are at most 63, so the `usize` shift never
overflows there. -/
def SizeClass.size (s : SizeClass) : Nat := 2 ^ s.exponent

/-- Number of trailing zero bits of `n` (`u64::trailing_zeros` restricted to
the positive inputs it receives here; `trailing_zeros(0)` is never reached
because `next_power_of_two` is always positive). -/
def trailingZeros (n : Nat) : Nat :=
  if h : n = 0 then 0
  else if n % 2 = 1 then 0
  else trailingZeros (n / 2) + 1
termination_by n
decreasing_by exact Nat.div_lt_self (Nat.pos_of_ne_zero h) (by omega)

/-- `u64::next_power_of_two`: the least power of two that is `≥ n`, with
`next_power_of_two 0 = 1`. For positive `n` the least exponent `k` with
`n ≤ 2 ^ k` is `Nat.clog 2 n` (`Nat.le_pow_clog`, `Nat.pow_pred_clog_lt_self`). -/
def next_power_of_two (n : Nat) : Nat :=
  if n = 0 then 1 else 2 ^ Nat.clog 2 n

/-- `impl From<u64> for SizeClass` (pointer.rs lines 76-82):
`SizeClass(u8::try_from(item.next_power_of_two().trailing_zeros()).unwrap())`.
For `n > 2^63` the next power of two overflows `u64` and the source panics
(`none`); otherwise the exponent is at most 63 and the `u8` conversion
succeeds. -/
def SizeClass.fromLen (n : Nat) : Option SizeClass :=
  if n ≤ 2 ^ 63 then some ⟨trailingZeros (next_power_of_two n)⟩ else none

/-- `PointerKind` discriminants (pointer.rs lines 92-101):
`InMemory=0, Heap=1, Log=2, LogAndHeap=3, Free=4, Unassigned=5`. -/
inductive PointerKind where
  | InMemory
  | Heap
  | Log
  | LogAndHeap
  | Free
  | Unassigned
deriving DecidableEq, BEq

/-- Inverse of the `repr(u8)` discriminant assignment. `PagePointer::kind`
transmutes the last byte to `PointerKind`; a byte outside `0..=5` has no
corresponding variant (undefined behaviour in the source), hence `none`. -/
def PointerKind.ofByte (b : Nat) : Option PointerKind :=
  if b = 0 then some PointerKind.InMemory
  else if b = 1 then some PointerKind.Heap
  else if b = 2 then some PointerKind.Log
  else if b = 3 then some PointerKind.LogAndHeap
  else if b = 4 then some PointerKind.Free
  else if b = 5 then some PointerKind.Unassigned
  else none

/-- `HeapId { slab: u8, index: u32 }` (from `pagecache/heap.rs`, used here as
plain slot coordinates). -/
structure HeapId where
  slab : Nat
  index : Nat
deriving DecidableEq

/-- Modelled from the spec: `MIN_TRAILING_ZEROS` is declared in
`pagecache/heap.rs`, which is not part of the given sources; the spec
(sections 4.3 and 8) fixes it only as a constant floor below which no heap
slab exists. The value 16 (a 64 KiB minimum slab) is used here; no theorem
below depends on the exact value, only on it being a fixed byte-sized
constant. -/
def MIN_TRAILING_ZEROS : Nat := 16

/-- `PagePointer(pub [u8; 8])` (pointer.rs line 105): six payload bytes, one
size-class byte, one kind byte. -/
structure PagePointer where
  data : List Nat
deriving DecidableEq

/-- `impl Default for PagePointer` (pointer.rs lines 107-111): all-zero
payload with the `Unassigned` kind byte. -/
instance : Inhabited PagePointer := ⟨⟨[0, 0, 0, 0, 0, 0, 0, 5]⟩⟩

/-- `PagePointer::to_u64`: `u64::from_le_bytes(self.0)` (pointer.rs
lines 120-122). -/
def PagePointer.to_u64 (p : PagePointer) : Nat := fromLeBytes p.data

/-- `PagePointer::from_u64`: `PagePointer(u.to_le_bytes())` (pointer.rs
lines 124-126). -/
def PagePointer.from_u64 (u : Nat) : PagePointer := ⟨toLeBytes 8 u⟩

/-- Last byte of the 8-byte layout, the kind discriminant. -/
def PagePointer.kindByte (p : PagePointer) : Nat := p.data.getD 7 0

/-- `PagePointer::kind`: `transmute(self.0[7])` (pointer.rs lines 180-182);
a byte outside the six declared discriminants has no variant. -/
def PagePointer.kind (p : PagePointer) : Option PointerKind :=
  PointerKind.ofByte p.kindByte

/-- Contentless stand-in for `crate::Node`: the B-tree node type is an
external collaborator (spec section 1) whose contents the pointer layer never
inspects. -/
abbrev Node := Unit

/-- Contentless stand-in for `crate::Meta`, external for the same reason as
`Node`. -/
abbrev Meta := Unit

/-- `PersistedCounter { counter: u64, base: PagePointer }` (pointer.rs
lines 398-401). -/
structure PersistedCounter where
  counter : Nat
  base : PagePointer
deriving DecidableEq

/-- `LogAndHeap { log_offset, heap_id, log_lsn }` (pointer.rs lines 412-416):
the transient record for data living in both the log and the heap store. -/
structure LogAndHeap where
  log_offset : TruncatedLogOffset
  heap_id : HeapId
  log_lsn : Int
deriving DecidableEq

/-- Alias for the `LogAndHeap` record, usable inside the `PointerRead`
namespace where the bare name would resolve to the equally named
`PointerRead` constructor. -/
abbrev LogAndHeapRecord := LogAndHeap

/-- `LogAndHeap::lid` (pointer.rs lines 419-421). -/
def LogAndHeap.lid (r : LogAndHeap) : Nat := r.log_offset.to_lid

/-- `PersistedMeta { meta: Meta, base: PagePointer }` (pointer.rs
lines 429-432). -/
structure PersistedMeta where
  meta : Meta
  base : PagePointer
deriving DecidableEq

/-- `PersistedNode { node, base, frags, ts }` (pointer.rs lines 443-448). -/
structure PersistedNode where
  node : Node
  base : PagePointer
  frags : List PagePointer
  ts : Nat
deriving DecidableEq

/-- What a 48-bit address can hold while an `InMemory` pointer addresses it:
the concrete record type is recovered from the page id, not from the pointer
(pointer.rs `as_node` / `as_meta` / `as_counter`). -/
inductive Resident where
  | node (n : PersistedNode)
  | meta (m : PersistedMeta)
  | counter (c : PersistedCounter)
deriving DecidableEq

/-- Guard-protected memory: which resident record, if any, each 48-bit
address holds, and likewise for heap-allocated `LogAndHeap` records. A
`Shared` pointer in the source is an address interpreted through this
environment; dereferencing an address that holds nothing (or a record of
another type) is undefined behaviour in the source and `none` here. -/
structure Memory where
  resident : Nat → Option Resident
  logAndHeap : Nat → Option LogAndHeap

/-- `PointerRead` (pointer.rs lines 283-289), with each `Shared` pointer field
replaced by the raw 48-bit address it wraps. -/
inductive PointerRead where
  | Log (size_po2 : SizeClass) (base : TruncatedLogOffset)
  | Free (base : TruncatedLogOffset)
  | LogAndHeap (size_po2 : SizeClass) (ptr : Nat)
  | Heap (size_po2 : SizeClass) (heap_index : Nat)
  | InMemory (size_po2 : SizeClass) (ptr : Nat)
deriving DecidableEq

/-- `PagePointer::read` (pointer.rs lines 128-162): byte 6 is the size class,
bytes 0-5 the payload. `InMemory` and `LogAndHeap` widen the payload to a
48-bit address, `Heap` takes a 32-bit index from bytes 0-3, `Log` and `Free`
carry the offset bytes. The source match has no arm for `Unassigned`, and a
kind byte above 5 makes the transmute in `kind()` undefined; both are
`none`. -/
def PagePointer.read (p : PagePointer) : Option PointerRead :=
  match p.kind with
  | some PointerKind.InMemory =>
      some (PointerRead.InMemory ⟨p.data.getD 6 0⟩
        (fromLeBytes (p.data.take 6 ++ [0, 0])))
  | some PointerKind.Heap =>
      some (PointerRead.Heap ⟨p.data.getD 6 0⟩ (fromLeBytes (p.data.take 4)))
  | some PointerKind.Log =>
      some (PointerRead.Log ⟨p.data.getD 6 0⟩ ⟨p.data.take 6⟩)
  | some PointerKind.Free => some (PointerRead.Free ⟨p.data.take 6⟩)
  | some PointerKind.LogAndHeap =>
      some (PointerRead.LogAndHeap ⟨p.data.getD 6 0⟩
        (fromLeBytes (p.data.take 6 ++ [0, 0])))
  | some PointerKind.Unassigned => none
  | none => none

/-- `PagePointer::lid` (pointer.rs lines 171-178), called `log_offset()` in
the spec: the embedded offset for `Log` and `Free` reads, `None` for every
other decoding (the wildcard arm of the source also absorbs an undecodable
kind here). -/
def PagePointer.lid (p : PagePointer) : Option Nat :=
  match p.read with
  | some (PointerRead.Log _ base) => some base.to_lid
  | some (PointerRead.Free base) => some base.to_lid
  | _ => none

/-- `PagePointer::new_heap` (pointer.rs lines 214-228): packs the 32-bit heap
index into bytes 0-3, zero bytes 4-5, size class `slab + MIN_TRAILING_ZEROS`,
kind byte `Heap = 1`. The `u8` addition panics on overflow in the source
(`none` here); `u8::try_from(MIN_TRAILING_ZEROS).unwrap()` always succeeds
since the constant is below 256. -/
def PagePointer.new_heap (heap_id : HeapId) : Option PagePointer :=
  if heap_id.slab + MIN_TRAILING_ZEROS ≤ 255 then
    some ⟨[heap_id.index % 256, heap_id.index / 256 % 256,
           heap_id.index / 256 ^ 2 % 256, heap_id.index / 256 ^ 3 % 256,
           0, 0, heap_id.slab + MIN_TRAILING_ZEROS, 1]⟩
  else none

/-- `PagePointer::new_in_memory` (pointer.rs lines 201-212): packs the low six
bytes of the record address with the size class and kind byte `InMemory = 0`.
The source runs `assert_eq!(ptr_arr[6..7], [0, 0])`, the same length-one
versus length-two comparison as in `TruncatedLogOffset::from_u64`. -/
def PagePointer.new_in_memory (size_po2 : Nat) (addr : Nat) : Option PagePointer :=
  if [addr / 256 ^ 6 % 256] = ([0, 0] : List Nat) then
    some ⟨[addr % 256, addr / 256 % 256, addr / 256 ^ 2 % 256,
           addr / 256 ^ 3 % 256, addr / 256 ^ 4 % 256, addr / 256 ^ 5 % 256,
           size_po2, 0]⟩
  else none

/-- `PagePointer::new_log` (pointer.rs lines 230-243): narrows the offset via
`TruncatedLogOffset::from_u64` and appends the size-class byte and the kind
byte the source actually writes, `PointerKind::LogAndHeap as u8 = 3` (the
source sets `let kind = PointerKind::LogAndHeap as u8;`, not `Log = 2`). -/
def PagePointer.new_log (size_class : SizeClass) (off : Nat) : Option PagePointer :=
  (TruncatedLogOffset.from_u64 off).map fun t =>
    ⟨t.data ++ [size_class.exponent, 3]⟩

/-- `PagePointer::new_free` (pointer.rs lines 245-253): narrowed offset,
size-class byte 0, kind byte `Free = 4`. -/
def PagePointer.new_free (off : Nat) : Option PagePointer :=
  (TruncatedLogOffset.from_u64 off).map fun t => ⟨t.data ++ [0, 4]⟩

/-- `PagePointer::new_log_and_heap` (pointer.rs lines 255-267): the body
begins with `todo!("allocate LogAndHeap")`, which panics unconditionally; the
packing code after it is unreachable. -/
def PagePointer.new_log_and_heap (_size : SizeClass) (_lid : Nat)
    (_heap_id : HeapId) (_lsn : Int) : Option PagePointer :=
  none

/-- `PagePointer::is_lone_log_and_heap` (pointer.rs lines 269-271). -/
def PagePointer.is_lone_log_and_heap (p : PagePointer) : Bool :=
  p.kind == some PointerKind.LogAndHeap

/-- `PagePointer::is_inline` (pointer.rs lines 273-275). -/
def PagePointer.is_inline (p : PagePointer) : Bool :=
  p.kind == some PointerKind.Log

/-- `PagePointer::is_merged_into_snapshot` (pointer.rs lines 277-279). -/
def PagePointer.is_merged_into_snapshot (p : PagePointer) : Bool :=
  p.kind != some PointerKind.LogAndHeap

/-- `PagePointer::forget_heap_log_coordinates` (pointer.rs lines 164-169):
on a `LogAndHeap` decoding, dereference the combined record and replace the
pointer with `new_heap(record.heap_id)`; any other decoding is left
untouched; an undecodable kind makes `read()` undefined. -/
def PagePointer.forget_heap_log_coordinates (M : Memory) (p : PagePointer) :
    Option PagePointer :=
  match p.read with
  | some (PointerRead.LogAndHeap _ a) =>
      (M.logAndHeap a).bind fun r => PagePointer.new_heap r.heap_id
  | some _ => some p
  | none => none

/-- `PersistedNode::iter_lids` (pointer.rs lines 458-465): the base pointer's
offset, if it has one, then each fragment's offset in insertion order,
skipping fragments without one (`filter_map(PagePointer::lid)`). -/
def PersistedNode.iter_lids (n : PersistedNode) : List Nat :=
  n.base.lid.toList ++ n.frags.filterMap PagePointer.lid

/-- `PointerRead::as_node` (pointer.rs lines 372-378): panics unless the
decoding is `InMemory`; reading the address at the wrong record type is
undefined behaviour. Both are `none`. -/
def PointerRead.as_node (M : Memory) (r : PointerRead) : Option PersistedNode :=
  match r with
  | PointerRead.InMemory _ a =>
      match M.resident a with
      | some (Resident.node n) => some n
      | _ => none
  | _ => none

/-- `PointerRead::as_meta` (pointer.rs lines 380-386), modelled like
`as_node`. -/
def PointerRead.as_meta (M : Memory) (r : PointerRead) : Option PersistedMeta :=
  match r with
  | PointerRead.InMemory _ a =>
      match M.resident a with
      | some (Resident.meta m) => some m
      | _ => none
  | _ => none

/-- `PointerRead::as_counter` (pointer.rs lines 388-394), modelled like
`as_node`. -/
def PointerRead.as_counter (M : Memory) (r : PointerRead) : Option PersistedCounter :=
  match r with
  | PointerRead.InMemory _ a =>
      match M.resident a with
      | some (Resident.counter c) => some c
      | _ => none
  | _ => none

/-- `PointerRead::as_log_and_heap` (pointer.rs lines 364-370). -/
def PointerRead.as_log_and_heap (M : Memory) (r : PointerRead) :
    Option LogAndHeapRecord :=
  match r with
  | PointerRead.LogAndHeap _ a => M.logAndHeap a
  | _ => none

/-- `PointerRead::is_free` (pointer.rs lines 345-351). -/
def PointerRead.is_free (r : PointerRead) : Bool :=
  match r with
  | PointerRead.Free _ => true
  | _ => false

/-- `PointerRead::log_size` (pointer.rs lines 353-362), called
`encoded_size()` in the spec: the size class's power of two, or 0 for
`Free`. -/
def PointerRead.log_size (r : PointerRead) : Nat :=
  match r with
  | PointerRead.Heap s _ => s.size
  | PointerRead.Log s _ => s.size
  | PointerRead.LogAndHeap s _ => s.size
  | PointerRead.InMemory s _ => s.size
  | PointerRead.Free _ => 0

/-- `PointerRead::iter_lids` (pointer.rs lines 304-323), called
`log_offset_entries` in the spec. The lazy iterator of the source is modelled
as the finite list of offsets it yields: nothing for `Heap`, the embedded
offset for `Free` and `Log`, the combined record's offset for `LogAndHeap`,
and for `InMemory` the meta's, counter's, or node's offsets according to the
page id. -/
def PointerRead.iter_lids (M : Memory) (r : PointerRead) (pid : Nat) :
    Option (List Nat) :=
  match r with
  | PointerRead.Heap _ _ => some []
  | PointerRead.Free base => some [base.to_lid]
  | PointerRead.Log _ base => some [base.to_lid]
  | PointerRead.LogAndHeap _ a => (M.logAndHeap a).map fun x => [x.lid]
  | PointerRead.InMemory _ _ =>
      match pid with
      | 0 => (r.as_meta M).map fun m => m.base.lid.toList
      | 1 => (r.as_counter M).map fun c => c.base.lid.toList
      | _ => (r.as_node M).map fun n => n.iter_lids

/-- `PointerRead::exists_on_segment` (pointer.rs lines 325-333), exactly as
written in the source: it computes `sid = segment / segment_size` and then
calls `self.as_node().iter_lids().any(..)` directly — the page id is unused
and every decoding other than an `InMemory` node panics in `as_node`. -/
def PointerRead.exists_on_segment (M : Memory) (r : PointerRead)
    (segment segment_size _pid : Nat) : Option Bool :=
  let sid := segment / segment_size
  (r.as_node M).map fun n =>
    n.iter_lids.any fun pp => pp / segment_size == sid

/-! Concrete example records used by the theorems below. -/

/-- Memory with nothing resident at any address. -/
def emptyMemory : Memory := ⟨fun _ => none, fun _ => none⟩

/-- A `Log`-kind pointer carrying offset 100. -/
def logPtr100 : PagePointer := ⟨[100, 0, 0, 0, 0, 0, 0, 2]⟩

/-- A `Log`-kind pointer carrying offset 200. -/
def logPtr200 : PagePointer := ⟨[200, 0, 0, 0, 0, 0, 0, 2]⟩

/-- A `Heap`-kind pointer (heap index 7, size-class byte 18): it carries no
log offset. -/
def heapPtr : PagePointer := ⟨[7, 0, 0, 0, 0, 0, 18, 1]⟩

/-- A `Free`-kind pointer carrying offset 300 (`300 = 44 + 256`). -/
def freePtr300 : PagePointer := ⟨[44, 1, 0, 0, 0, 0, 0, 4]⟩

/-- Node with base offset 100 and fragments carrying offsets 200 and 300
around one heap-only fragment. -/
def exNode : PersistedNode := ⟨(), logPtr100, [logPtr200, heapPtr, freePtr300], 0⟩

/-- Meta record whose base pointer carries offset 100. -/
def exMeta : PersistedMeta := ⟨(), logPtr100⟩

/-- Counter record whose base pointer carries offset 300. -/
def exCounter : PersistedCounter := ⟨5, freePtr300⟩

/-- `LogAndHeap` record carrying offset 2048 and heap id `{slab 2, index 7}`. -/
def exRec : LogAndHeap := ⟨⟨[0, 8, 0, 0, 0, 0]⟩, ⟨2, 7⟩, 0⟩

/-- Memory holding `exNode` at address 42, `exMeta` at 43, `exCounter` at 44,
and `exRec` at 50. -/
def exMemory : Memory :=
  ⟨fun a =>
    if a = 42 then some (Resident.node exNode)
    else if a = 43 then some (Resident.meta exMeta)
    else if a = 44 then some (Resident.counter exCounter)
    else none,
   fun a => if a = 50 then some exRec else none⟩

/-- A `LogAndHeap`-kind pointer addressing `exRec` at address 50. -/
def lahPtr : PagePointer := ⟨[50, 0, 0, 0, 0, 0, 3, 3]⟩

/-! Claim theorems. -/

/-- C2. The claim says `TruncatedLogOffset::from_u64(n)` succeeds iff
`n < 2^48`. In the source the assertion `assert_eq!(arr[6..7], [0, 0])`
compares the length-one slice `[arr[6]]` with a length-two array, which never
holds, so construction panics for every offset — including `4096 < 2^48`,
where the claim requires success and a lossless round trip. -/
theorem from_u64_panics_on_valid_offset :
    TruncatedLogOffset.from_u64 4096 = none ∧ 4096 < 2 ^ 48
      ∧ ∀ n, TruncatedLogOffset.from_u64 n = none := by
  refine ⟨rfl, by norm_num, fun n => ?_⟩
  simp [TruncatedLogOffset.from_u64]

/-- C1. Kind isolation fails on the code: `new_log` sets the kind byte to
`PointerKind::LogAndHeap as u8 = 3`, so the bytes it assembles for offset 4096
decode to the `LogAndHeap` variant, not `Log` (second conjunct); moreover
`new_log` itself, `new_in_memory`, and `new_free` panic on every input through
the broken offset assertion, and `new_log_and_heap` is `todo!()`, so four of
the five constructors never even return a pointer. -/
theorem new_log_is_not_log_kind :
    PagePointer.new_log ⟨0⟩ 4096 = none
      ∧ (PagePointer.mk [0, 16, 0, 0, 0, 0, 0, 3]).read
          = some (PointerRead.LogAndHeap ⟨0⟩ 4096)
      ∧ PagePointer.new_in_memory 5 4096 = none
      ∧ PagePointer.new_free 4096 = none
      ∧ PagePointer.new_log_and_heap ⟨0⟩ 4096 ⟨2, 7⟩ 0 = none
      ∧ (PagePointer.new_heap ⟨2, 7⟩).map PagePointer.read
          = some (some (PointerRead.Heap ⟨18⟩ 7)) :=
  ⟨rfl, rfl, rfl, rfl, rfl, rfl⟩

/-- C6. The claim says `new_free(4096)` yields a pointer with
`is_free() == true`, `log_offset() == Some(4096)`, `encoded_size() == 0`. The
code panics instead: `new_free` funnels every offset through the broken
`from_u64` assertion. The remaining conjuncts evaluate the pointer the
constructor was meant to build (`Free` payload 4096): that byte pattern does
satisfy the claimed accessors, isolating the failure to the constructor. -/
theorem new_free_panics :
    PagePointer.new_free 4096 = none
      ∧ (∀ o, PagePointer.new_free o = none)
      ∧ (PagePointer.mk [0, 16, 0, 0, 0, 0, 0, 4]).read
          = some (PointerRead.Free ⟨[0, 16, 0, 0, 0, 0]⟩)
      ∧ (PagePointer.mk [0, 16, 0, 0, 0, 0, 0, 4]).lid = some 4096
      ∧ PointerRead.is_free (PointerRead.Free ⟨[0, 16, 0, 0, 0, 0]⟩) = true
      ∧ PointerRead.log_size (PointerRead.Free ⟨[0, 16, 0, 0, 0, 0]⟩) = 0 := by
  refine ⟨rfl, fun o => ?_, rfl, rfl, rfl, rfl⟩
  simp [PagePointer.new_free, TruncatedLogOffset.from_u64]

/-- C3. The claim says `exists_on_segment(segment, segment_size, pid)` is true
iff some offset of `log_offset_entries(pid)` lands on the addressed segment.
The code instead calls `self.as_node()` unconditionally: for a `Log`-kind
decoding carrying offset 2048 the enumeration yields exactly `[2048]` (so the
claim demands `true` at segment 2048 of size 1024), but `exists_on_segment`
panics (`none`); a `Heap` decoding (empty enumeration, claim demands `false`)
panics the same way. -/
theorem exists_on_segment_ignores_entries :
    PointerRead.iter_lids emptyMemory (PointerRead.Log ⟨0⟩ ⟨[0, 8, 0, 0, 0, 0]⟩) 2
        = some [2048]
      ∧ PointerRead.exists_on_segment emptyMemory
          (PointerRead.Log ⟨0⟩ ⟨[0, 8, 0, 0, 0, 0]⟩) 2048 1024 2 = none
      ∧ PointerRead.exists_on_segment emptyMemory
          (PointerRead.Heap ⟨16⟩ 7) 2048 1024 2 = none :=
  ⟨rfl, rfl, rfl⟩

/-- C5. `read()` produces a decoded variant exactly for the five kind
discriminants `0..=4`; the `Unassigned` sentinel `5` (the kind byte of the
default pointer) and every larger byte produce no variant — the source has no
match arm for `Unassigned` and an out-of-range transmute is undefined, so no
such pointer is ever silently decoded. -/
theorem read_defined_on_exactly_five_kinds (p : PagePointer) :
    ((p.read).isSome ↔ p.kindByte ≤ 4) ∧ (default : PagePointer).read = none := by
  refine ⟨?_, rfl⟩
  unfold PagePointer.read PagePointer.kind PointerKind.ofByte
  split_ifs with h0 h1 h2 h3 h4 h5 <;> simp <;> omega

/-- C10. For every pointer whose kind byte is a defined discriminant,
`is_merged_into_snapshot` is the boolean negation of `is_lone_log_and_heap`
(both test the kind byte against `LogAndHeap = 3`), and an `InMemory` pointer
in particular reports `is_merged_into_snapshot() == true`. -/
theorem merged_iff_not_lone (p : PagePointer) (h : p.kindByte ≤ 5) :
    p.is_merged_into_snapshot = !p.is_lone_log_and_heap
      ∧ (p.kind = some PointerKind.InMemory → p.is_merged_into_snapshot = true) := by
  refine ⟨rfl, fun hk => ?_⟩
  unfold PagePointer.is_merged_into_snapshot
  rw [hk]
  rfl

/-- Digit reconstruction: re-encoding the value of a little-endian byte list
whose entries are bytes gives back the list. -/
theorem toLeBytes_fromLeBytes (l : List Nat) (hl : ∀ b ∈ l, b < 256) :
    toLeBytes l.length (fromLeBytes l) = l := by
  induction l with
  | nil => rfl
  | cons b t ih =>
      have hb : b < 256 := hl b (List.mem_cons_self b t)
      have ht : ∀ x ∈ t, x < 256 := fun x hx => hl x (List.mem_cons_of_mem b hx)
      simp only [List.length_cons, toLeBytes, fromLeBytes]
      have h1 : (b + 256 * fromLeBytes t) % 256 = b := by omega
      have h2 : (b + 256 * fromLeBytes t) / 256 = fromLeBytes t := by omega
      rw [h1, h2, ih ht]

/-- C9. For every valid 8-byte pointer value, the `u64` form round-trips
byte-exactly: `from_bits(to_bits(p)) == p`. -/
theorem from_u64_to_u64_roundtrip (p : PagePointer) (h8 : p.data.length = 8)
    (hb : ∀ b ∈ p.data, b < 256) : PagePointer.from_u64 p.to_u64 = p := by
  have h := toLeBytes_fromLeBytes p.data hb
  rw [h8] at h
  unfold PagePointer.from_u64 PagePointer.to_u64
  cases p with
  | mk d => simp_all

/-- Witness for C9 at the concrete pointer `[1,2,3,4,5,6,7,0]`. -/
theorem from_u64_to_u64_roundtrip_witness :
    PagePointer.from_u64 (PagePointer.to_u64 ⟨[1, 2, 3, 4, 5, 6, 7, 0]⟩)
      = ⟨[1, 2, 3, 4, 5, 6, 7, 0]⟩ :=
  from_u64_to_u64_roundtrip ⟨[1, 2, 3, 4, 5, 6, 7, 0]⟩ rfl (by decide)

/-- The trailing-zero count of a power of two is its exponent. -/
theorem trailingZeros_two_pow (k : Nat) : trailingZeros (2 ^ k) = k := by
  induction k with
  | zero =>
      unfold trailingZeros
      norm_num
  | succ k ih =>
      unfold trailingZeros
      have h0 : (2 : Nat) ^ (k + 1) ≠ 0 := (pow_pos (by norm_num) _).ne'
      have h1 : 2 ^ (k + 1) % 2 = 0 := by
        rw [pow_succ]
        exact Nat.mul_mod_left _ _
      rw [dif_neg h0, if_neg (by omega)]
      have h2 : 2 ^ (k + 1) / 2 = 2 ^ k := by
        rw [pow_succ]
        exact Nat.mul_div_cancel _ (by norm_num)
      rw [h2, ih]

/-- In range, `SizeClass::from` succeeds and records exactly the next power of
two as its size. -/
theorem size_fromLen (n : Nat) (h : n ≤ 2 ^ 63) :
    ∃ s, SizeClass.fromLen n = some s ∧ s.size = next_power_of_two n := by
  refine ⟨⟨trailingZeros (next_power_of_two n)⟩,
    by unfold SizeClass.fromLen; rw [if_pos h], ?_⟩
  show 2 ^ trailingZeros (next_power_of_two n) = next_power_of_two n
  unfold next_power_of_two
  by_cases h0 : n = 0
  · rw [if_pos h0]
    have h1 : trailingZeros 1 = 0 := by simpa using trailingZeros_two_pow 0
    rw [h1]
    norm_num
  · rw [if_neg h0, trailingZeros_two_pow]

/-- `next_power_of_two` is monotone. -/
theorem next_power_of_two_mono {a b : Nat} (hab : a ≤ b) :
    next_power_of_two a ≤ next_power_of_two b := by
  unfold next_power_of_two
  by_cases ha : a = 0
  · rw [if_pos ha]
    split
    · exact le_refl 1
    · exact Nat.one_le_pow _ _ (by norm_num)
  · have hb : b ≠ 0 := by omega
    rw [if_neg ha, if_neg hb]
    exact Nat.pow_le_pow_right (by norm_num) (Nat.clog_mono_right 2 hab)

/-- `next_power_of_two n` is at least `n`. -/
theorem le_next_power_of_two (n : Nat) (h : 0 < n) : n ≤ next_power_of_two n := by
  unfold next_power_of_two
  rw [if_neg h.ne']
  exact Nat.le_pow_clog (by norm_num) n

/-- For positive `n`, `next_power_of_two n` is below `2 * n`. -/
theorem next_power_of_two_lt (n : Nat) (h : 0 < n) : next_power_of_two n < 2 * n := by
  unfold next_power_of_two
  rw [if_neg h.ne']
  rcases Nat.lt_or_ge n 2 with h2 | h2
  · have hn1 : n = 1 := by omega
    subst hn1
    rw [Nat.clog_one_right]
    norm_num
  · have hc : 0 < Nat.clog 2 n := Nat.clog_pos (by norm_num) h2
    have hlt : 2 ^ (Nat.clog 2 n - 1) < n :=
      Nat.pow_pred_clog_lt_self (by norm_num) (by omega)
    have hsplit : 2 ^ Nat.clog 2 n = 2 * 2 ^ (Nat.clog 2 n - 1) := by
      have hc1 : Nat.clog 2 n - 1 + 1 = Nat.clog 2 n := by omega
      calc 2 ^ Nat.clog 2 n = 2 ^ (Nat.clog 2 n - 1 + 1) := by rw [hc1]
        _ = 2 * 2 ^ (Nat.clog 2 n - 1) := by rw [pow_succ]; ring
    omega

/-- C8. `SizeClass` construction is monotone on the `u64` range where
`next_power_of_two` is defined, and tight: for positive `n` the chosen size is
the least power of two at or above `n` (so `n ≤ size < 2 * n`), while `n = 0`
maps to size 1. -/
theorem size_class_monotone_and_tight :
    (∀ n1 n2, n1 ≤ n2 → n2 ≤ 2 ^ 63 →
      ∃ s1 s2, SizeClass.fromLen n1 = some s1 ∧ SizeClass.fromLen n2 = some s2
        ∧ s1.size ≤ s2.size)
  ∧ (∀ n, 0 < n → n ≤ 2 ^ 63 →
      ∃ s, SizeClass.fromLen n = some s ∧ n ≤ s.size ∧ s.size < 2 * n)
  ∧ (∃ s, SizeClass.fromLen 0 = some s ∧ s.size = 1) := by
  refine ⟨fun n1 n2 h12 h2 => ?_, fun n hn h63 => ?_, ?_⟩
  · obtain ⟨s1, hs1, hv1⟩ := size_fromLen n1 (le_trans h12 h2)
    obtain ⟨s2, hs2, hv2⟩ := size_fromLen n2 h2
    exact ⟨s1, s2, hs1, hs2, by rw [hv1, hv2]; exact next_power_of_two_mono h12⟩
  · obtain ⟨s, hs, hv⟩ := size_fromLen n h63
    exact ⟨s, hs, by rw [hv]; exact le_next_power_of_two n hn,
      by rw [hv]; exact next_power_of_two_lt n hn⟩
  · obtain ⟨s, hs, hv⟩ := size_fromLen 0 (by norm_num)
    refine ⟨s, hs, ?_⟩
    rw [hv]
    rfl

/-- Witness for C8 at `n1 = 3 ≤ n2 = 5` and `n = 7`. -/
theorem size_class_monotone_and_tight_witness :
    (∃ s1 s2, SizeClass.fromLen 3 = some s1 ∧ SizeClass.fromLen 5 = some s2
        ∧ s1.size ≤ s2.size)
  ∧ (∃ s, SizeClass.fromLen 7 = some s ∧ 7 ≤ s.size ∧ s.size < 2 * 7) :=
  ⟨size_class_monotone_and_tight.1 3 5 (by norm_num) (by norm_num),
   size_class_monotone_and_tight.2.1 7 (by norm_num) (by norm_num)⟩

/-- C4. `log_offset_entries` (`iter_lids`) follows the per-kind policy of the
source: nothing for `Heap`; the single embedded offset for `Free` and `Log`;
the offset recorded in the addressed combined record for `LogAndHeap`; for
`InMemory`, page id 0 yields the decoded meta's base offset, page id 1 the
counter's, and any other page id the node's base offset followed by each
fragment's offset in insertion order, skipping pointers without a log offset.
The final conjunct checks the concrete scenario: a node with base offset 100
and fragments carrying 200 and 300 around one heap-only fragment yields
exactly `[100, 200, 300]`. -/
theorem iter_lids_matches_kind_policy :
    (∀ M s i pid, PointerRead.iter_lids M (PointerRead.Heap s i) pid = some [])
  ∧ (∀ M b pid, PointerRead.iter_lids M (PointerRead.Free b) pid = some [b.to_lid])
  ∧ (∀ M s b pid,
      PointerRead.iter_lids M (PointerRead.Log s b) pid = some [b.to_lid])
  ∧ (∀ M s a L pid, M.logAndHeap a = some L →
      PointerRead.iter_lids M (PointerRead.LogAndHeap s a) pid
        = some [L.log_offset.to_lid])
  ∧ (∀ M s a m, M.resident a = some (Resident.meta m) →
      PointerRead.iter_lids M (PointerRead.InMemory s a) 0
        = some m.base.lid.toList)
  ∧ (∀ M s a c, M.resident a = some (Resident.counter c) →
      PointerRead.iter_lids M (PointerRead.InMemory s a) 1
        = some c.base.lid.toList)
  ∧ (∀ M s a n pid, M.resident a = some (Resident.node n) → 2 ≤ pid →
      PointerRead.iter_lids M (PointerRead.InMemory s a) pid
        = some (n.base.lid.toList ++ n.frags.filterMap PagePointer.lid))
  ∧ PointerRead.iter_lids exMemory (PointerRead.InMemory ⟨5⟩ 42) 2
      = some [100, 200, 300] := by
  refine ⟨fun M s i pid => rfl, fun M b pid => rfl, fun M s b pid => rfl,
    fun M s a L pid hL => ?_, fun M s a m hm => ?_, fun M s a c hc => ?_,
    fun M s a n pid hn hpid => ?_, rfl⟩
  · simp [PointerRead.iter_lids, hL, LogAndHeap.lid]
  · simp [PointerRead.iter_lids, PointerRead.as_meta, hm]
  · simp [PointerRead.iter_lids, PointerRead.as_counter, hc]
  · obtain ⟨k, rfl⟩ : ∃ k, pid = k + 2 := ⟨pid - 2, by omega⟩
    simp [PointerRead.iter_lids, PointerRead.as_node, hn, PersistedNode.iter_lids]

/-- Witness for C4: the hypothesis-bearing conjuncts instantiated on
`exMemory` (combined record at 50, meta at 43, counter at 44, node at 42). -/
theorem iter_lids_matches_kind_policy_witness :
    PointerRead.iter_lids exMemory (PointerRead.LogAndHeap ⟨3⟩ 50) 7
        = some [exRec.log_offset.to_lid]
      ∧ PointerRead.iter_lids exMemory (PointerRead.InMemory ⟨5⟩ 43) 0
        = some exMeta.base.lid.toList
      ∧ PointerRead.iter_lids exMemory (PointerRead.InMemory ⟨5⟩ 44) 1
        = some exCounter.base.lid.toList
      ∧ PointerRead.iter_lids exMemory (PointerRead.InMemory ⟨5⟩ 42) 5
        = some (exNode.base.lid.toList ++ exNode.frags.filterMap PagePointer.lid) :=
  ⟨iter_lids_matches_kind_policy.2.2.2.1 exMemory ⟨3⟩ 50 exRec 7 rfl,
   iter_lids_matches_kind_policy.2.2.2.2.1 exMemory ⟨5⟩ 43 exMeta rfl,
   iter_lids_matches_kind_policy.2.2.2.2.2.1 exMemory ⟨5⟩ 44 exCounter rfl,
   iter_lids_matches_kind_policy.2.2.2.2.2.2.1 exMemory ⟨5⟩ 42 exNode 5 rfl
     (by omega)⟩

/-- A pointer whose decoding is any variant other than `LogAndHeap` is left
unchanged by `forget_heap_log_coordinates`. -/
theorem forget_noop_of_read (M : Memory) (p : PagePointer) (r : PointerRead)
    (hr : p.read = some r) (hne : ∀ s a, r ≠ PointerRead.LogAndHeap s a) :
    PagePointer.forget_heap_log_coordinates M p = some p := by
  unfold PagePointer.forget_heap_log_coordinates
  rw [hr]
  cases r with
  | Log s b => rfl
  | Free b => rfl
  | LogAndHeap s a => exact absurd rfl (hne s a)
  | Heap s i => rfl
  | InMemory s a => rfl

/-- Any pointer produced by `new_heap` decodes to the `Heap` variant. -/
theorem new_heap_reads_heap (h : HeapId) (q : PagePointer)
    (hq : PagePointer.new_heap h = some q) :
    ∃ s i, q.read = some (PointerRead.Heap s i) := by
  unfold PagePointer.new_heap at hq
  split_ifs at hq
  obtain rfl : _ = q := Option.some.inj hq
  exact ⟨_, _, rfl⟩


/-- Reduction of `forget_heap_log_coordinates` on a `LogAndHeap` decoding. -/
theorem forget_of_read_lah (M : Memory) (p : PagePointer) (s : SizeClass)
    (a : Nat) (hr : p.read = some (PointerRead.LogAndHeap s a)) :
    PagePointer.forget_heap_log_coordinates M p
      = (M.logAndHeap a).bind fun r => PagePointer.new_heap r.heap_id := by
  unfold PagePointer.forget_heap_log_coordinates
  rw [hr]

/-- C7. `forget_heap_log_coordinates` is idempotent (a second application
returns the pointer of the first unchanged); on a `LogAndHeap` pointer it
collapses the value to the plain `Heap` pointer built from the heap id in the
addressed record, discarding the log offset and lsn; and on every other
decodable kind it is a no-op. -/
theorem forget_heap_log_coordinates_spec :
    (∀ M p q, PagePointer.forget_heap_log_coordinates M p = some q →
        PagePointer.forget_heap_log_coordinates M q = some q)
  ∧ (∀ M p s a L, p.read = some (PointerRead.LogAndHeap s a) →
        M.logAndHeap a = some L →
        PagePointer.forget_heap_log_coordinates M p
          = PagePointer.new_heap L.heap_id)
  ∧ (∀ M p k, p.kind = some k → k ≠ PointerKind.LogAndHeap →
        k ≠ PointerKind.Unassigned →
        PagePointer.forget_heap_log_coordinates M p = some p) := by
  refine ⟨fun M p q h => ?_, fun M p s a L hr hL => ?_, fun M p k hk h3 h5 => ?_⟩
  · rcases hr : p.read with _ | r
    · have hnone : PagePointer.forget_heap_log_coordinates M p = none := by
        unfold PagePointer.forget_heap_log_coordinates
        rw [hr]
      rw [hnone] at h
      exact absurd h (by simp)
    · cases r with
      | LogAndHeap s a =>
          rw [forget_of_read_lah M p s a hr] at h
          rcases hL : M.logAndHeap a with _ | L
          · rw [hL] at h
            exact absurd h (by simp)
          · rw [hL] at h
            simp only [Option.some_bind] at h
            obtain ⟨s2, i2, hq⟩ := new_heap_reads_heap L.heap_id q h
            exact forget_noop_of_read M q _ hq
              (fun s3 a3 hcontra => PointerRead.noConfusion hcontra)
      | Log s b =>
          have hself := forget_noop_of_read M p _ hr
            (fun s3 a3 hcontra => PointerRead.noConfusion hcontra)
          rw [hself] at h
          obtain rfl : p = q := Option.some.inj h
          exact hself
      | Free b =>
          have hself := forget_noop_of_read M p _ hr
            (fun s3 a3 hcontra => PointerRead.noConfusion hcontra)
          rw [hself] at h
          obtain rfl : p = q := Option.some.inj h
          exact hself
      | Heap s i =>
          have hself := forget_noop_of_read M p _ hr
            (fun s3 a3 hcontra => PointerRead.noConfusion hcontra)
          rw [hself] at h
          obtain rfl : p = q := Option.some.inj h
          exact hself
      | InMemory s a =>
          have hself := forget_noop_of_read M p _ hr
            (fun s3 a3 hcontra => PointerRead.noConfusion hcontra)
          rw [hself] at h
          obtain rfl : p = q := Option.some.inj h
          exact hself
  · rw [forget_of_read_lah M p s a hr, hL]
    rfl
  · cases k with
    | LogAndHeap => exact absurd rfl h3
    | Unassigned => exact absurd rfl h5
    | InMemory =>
        have hr : p.read = some (PointerRead.InMemory ⟨p.data.getD 6 0⟩
            (fromLeBytes (p.data.take 6 ++ [0, 0]))) := by
          unfold PagePointer.read
          rw [hk]
        exact forget_noop_of_read M p _ hr
          (fun s3 a3 hcontra => PointerRead.noConfusion hcontra)
    | Heap =>
        have hr : p.read = some (PointerRead.Heap ⟨p.data.getD 6 0⟩
            (fromLeBytes (p.data.take 4))) := by
          unfold PagePointer.read
          rw [hk]
        exact forget_noop_of_read M p _ hr
          (fun s3 a3 hcontra => PointerRead.noConfusion hcontra)
    | Log =>
        have hr : p.read = some (PointerRead.Log ⟨p.data.getD 6 0⟩
            ⟨p.data.take 6⟩) := by
          unfold PagePointer.read
          rw [hk]
        exact forget_noop_of_read M p _ hr
          (fun s3 a3 hcontra => PointerRead.noConfusion hcontra)
    | Free =>
        have hr : p.read = some (PointerRead.Free ⟨p.data.take 6⟩) := by
          unfold PagePointer.read
          rw [hk]
        exact forget_noop_of_read M p _ hr
          (fun s3 a3 hcontra => PointerRead.noConfusion hcontra)

/-- Witness for C7: the `LogAndHeap` pointer at address 50 collapses to the
heap pointer for `exRec`'s heap id, a second application leaves that heap
pointer unchanged, and a `Log` pointer is untouched. -/
theorem forget_heap_log_coordinates_spec_witness :
    PagePointer.forget_heap_log_coordinates exMemory heapPtr = some heapPtr
      ∧ PagePointer.forget_heap_log_coordinates exMemory lahPtr
        = PagePointer.new_heap exRec.heap_id
      ∧ PagePointer.forget_heap_log_coordinates exMemory logPtr100
        = some logPtr100 :=
  ⟨forget_heap_log_coordinates_spec.1 exMemory lahPtr heapPtr rfl,
   forget_heap_log_coordinates_spec.2.1 exMemory lahPtr ⟨3⟩ 50 exRec rfl rfl,
   forget_heap_log_coordinates_spec.2.2 exMemory logPtr100 PointerKind.Log rfl
     (by decide) (by decide)⟩

/-- Witness for C10 at the all-zero `InMemory` pointer. -/
theorem merged_iff_not_lone_witness :
    (PagePointer.is_merged_into_snapshot ⟨[0, 0, 0, 0, 0, 0, 0, 0]⟩
        = !PagePointer.is_lone_log_and_heap ⟨[0, 0, 0, 0, 0, 0, 0, 0]⟩)
      ∧ PagePointer.is_merged_into_snapshot ⟨[0, 0, 0, 0, 0, 0, 0, 0]⟩ = true :=
  ⟨(merged_iff_not_lone ⟨[0, 0, 0, 0, 0, 0, 0, 0]⟩ (by decide)).1,
   (merged_iff_not_lone ⟨[0, 0, 0, 0, 0, 0, 0, 0]⟩ (by decide)).2 rfl⟩
